import Mathlib

/-!
Verification of the pagination and field-flattening layer of
`spotify_interface.py` (class `SpotifyInterface`), as described by the
specification of the repository.

The Python code is shallowly embedded as follows: Python dicts/JSON values
become the inductive `Val`; a raised exception (KeyError, TypeError,
SpotifyException) becomes `none` of an `Option` result; Python generators
become fueled traversal functions that also record the trace of remote
calls they make.
-/

namespace Spotify

/-- Model of a Python/JSON value as handled by the interface: None, str,
int, list, dict (association list of string keys; Python dict keys are
unique, lookup finds the first binding). Floating point feature values are
passed through opaquely by the code and never computed on, so a numeric
leaf is modelled as an integer payload. -/
inductive Val : Type where
  | vnull : Val
  | vstr : String → Val
  | vnum : Int → Val
  | vlist : List Val → Val
  | vdict : List (String × Val) → Val

/-- First-match association-list lookup, modelling Python dict lookup
(`d[k]` when the key is there, otherwise the caller decides what a missing
key means). -/
def pyLookup (fields : List (String × Val)) (k : String) : Option Val :=
  match fields with
  | [] => none
  | (k2, v) :: rest => if k2 = k then some v else pyLookup rest k

/-- Models the Python subscript `v[k]`: a lookup on a dict, a raised
KeyError (`none`) when the key is missing, a raised TypeError (`none`)
when `v` is not a dict. -/
def Val.get? : Val → String → Option Val
  | .vdict fields, k => pyLookup fields k
  | _, _ => none

/-- Models the Python call `v.get(k, None)`: on a dict it never raises and
substitutes None for a missing key; on a non-dict it raises
AttributeError (`none`). -/
def Val.pyGet : Val → String → Option Val
  | .vdict fields, k => some ((pyLookup fields k).getD Val.vnull)
  | _, _ => none

/-- Models a Python list comprehension (or generator fully consumed) over
`xs` whose body `f` may raise: the first raise aborts the whole
comprehension. -/
def pyListComp (f : α → Option β) : List α → Option (List β)
  | [] => some []
  | a :: l =>
    (f a).bind fun b =>
    (pyListComp f l).bind fun bs =>
    some (b :: bs)

/-- A single quote character, used by the repr model. -/
def sq : String := String.singleton (Char.ofNat 39)

/-- Models CPython repr of a str for ordinary text: the value between
single quotes. The quote-choice and escaping CPython performs for special
characters is not modelled; no behaviour proved below depends on the
rendered text, only on the projection storing some textual rendering. -/
def pyReprStr (s : String) : String := sq ++ s ++ sq

mutual

/-- Models CPython repr on the modelled values. -/
def pyRepr : Val → String
  | .vnull => "None"
  | .vstr s => pyReprStr s
  | .vnum n => toString n
  | .vlist xs => "[" ++ String.intercalate ", " (pyReprList xs) ++ "]"
  | .vdict fs => "\x7b" ++ String.intercalate ", " (pyReprFields fs) ++ "\x7d"

/-- Pointwise repr of a list of values. -/
def pyReprList : List Val → List String
  | [] => []
  | x :: xs => pyRepr x :: pyReprList xs

/-- Pointwise repr of the bindings of a dict. -/
def pyReprFields : List (String × Val) → List String
  | [] => []
  | (k, v) :: fs => (pyReprStr k ++ ": " ++ pyRepr v) :: pyReprFields fs

end

/-- Models CPython repr of a tuple given the repr of its elements:
`()` when empty, a trailing comma when a singleton. -/
def pyReprTuple (xs : List String) : String :=
  match xs with
  | [] => "()"
  | [x] => "(" ++ x ++ ",)"
  | _ => "(" ++ String.intercalate ", " xs ++ ")"

/-- The class attribute `PLAYLIST_COLUMNS` (line 17). -/
def PLAYLIST_COLUMNS : List String :=
  ["name", "description", "uri", "url", "owner_name", "owner_uri"]

/-- The class attribute `TRACK_COLUMNS_BASIC` (lines 18-31). -/
def TRACK_COLUMNS_BASIC : List String :=
  ["added_at", "uri", "url", "name", "artist", "album", "album_date",
   "duration", "popularity"]

/-- The class attribute `TRACK_COLUMNS_AUDIO_FEATURES` (lines 32-83). -/
def TRACK_COLUMNS_AUDIO_FEATURES : List String :=
  ["tempo", "time_signature", "key", "mode", "danceability", "energy",
   "speechiness", "acousticness", "instrumentalness", "liveness",
   "loudness", "valence"]

/-- The class attribute `TRACK_COLUMNS = TRACK_COLUMNS_BASIC +
TRACK_COLUMNS_AUDIO_FEATURES` (line 84). -/
def TRACK_COLUMNS : List String :=
  TRACK_COLUMNS_BASIC ++ TRACK_COLUMNS_AUDIO_FEATURES

/-- The class attribute `MAX_FEATURES` (line 16). -/
def MAX_FEATURES : Nat := 100

/-- A projected row: the Python dict the projection functions build,
as an insertion-ordered association list. -/
abbrev Row := List (String × Val)

/-- Models line 222, `tuple(a[\x27name\x27] for a in track[\x27track\x27][\x27artists\x27])`:
iterating a non-list raises, and each element is subscripted with the key
`name` (raising when missing). -/
def artistNameTuple : Val → Option (List Val)
  | .vlist xs => pyListComp (fun a => a.get? "name") xs
  | _ => none

/-- The dict that the body of `get_info_from_track` builds (lines
220-236), with its keys in the insertion order of the source. -/
def trackRow (nameV artistV addedAtV albumV albumDateV urlV uriV durationV popularityV : Val) :
    Row :=
  [("name", nameV),
   ("artist", artistV),
   ("added_at", addedAtV),
   ("album", albumV),
   ("album_date", albumDateV),
   ("url", urlV),
   ("uri", uriV),
   ("duration", durationV),
   ("popularity", popularityV)]

/-- The body of `get_info_from_track` (lines 212-236) applied to the
result of the track lookup it performs on line 216: a `None` record gives
the all-null row over `TRACK_COLUMNS`; otherwise each field is extracted
by subscripting (raising, `none`, on any missing key along the path),
except the url which uses `.get(\x27spotify\x27, None)`. The field reads
happen in source order. -/
def get_info_from_track_of : Option Val → Option Row
  | none => some (TRACK_COLUMNS.map fun k => (k, Val.vnull))
  | some track =>
    (track.get? "track").bind fun tr =>
    (tr.get? "name").bind fun nameV =>
    (tr.get? "artists").bind fun artistsV =>
    (artistNameTuple artistsV).bind fun artistNames =>
    (track.get? "added_at").bind fun addedAtV =>
    (tr.get? "album").bind fun albumV =>
    (albumV.get? "name").bind fun albumNameV =>
    (albumV.get? "release_date").bind fun albumDateV =>
    (tr.get? "external_urls").bind fun extUrlsV =>
    (extUrlsV.pyGet "spotify").bind fun urlV =>
    (tr.get? "uri").bind fun uriV =>
    (tr.get? "duration_ms").bind fun durationV =>
    (tr.get? "popularity").bind fun popularityV =>
    some (trackRow nameV (Val.vstr (pyReprTuple (pyReprList artistNames)))
      addedAtV albumNameV albumDateV urlV uriV durationV popularityV)

/-- The dict that the body of `get_info_from_playlist` builds (lines
188-196), with its keys in the insertion order of the source. -/
def playlistRow (nameV descriptionV uriV urlV ownerNameV ownerUriV : Val) : Row :=
  [("name", nameV),
   ("description", descriptionV),
   ("uri", uriV),
   ("url", urlV),
   ("owner_name", ownerNameV),
   ("owner_uri", ownerUriV)]

/-- The body of `get_info_from_playlist` (lines 180-196) applied to the
result of the playlist lookup it performs on line 184: a `None` record
gives the all-null row over `PLAYLIST_COLUMNS`; otherwise subscripting
raises on a missing key, except the url which uses
`.get(\x27spotify\x27, None)`. -/
def get_info_from_playlist_of : Option Val → Option Row
  | none => some (PLAYLIST_COLUMNS.map fun k => (k, Val.vnull))
  | some playlist =>
    (playlist.get? "name").bind fun nameV =>
    (playlist.get? "description").bind fun descriptionV =>
    (playlist.get? "uri").bind fun uriV =>
    (playlist.get? "external_urls").bind fun extUrlsV =>
    (extUrlsV.pyGet "spotify").bind fun urlV =>
    ((playlist.get? "owner").bind fun o => o.get? "display_name").bind fun ownerNameV =>
    ((playlist.get? "owner").bind fun o => o.get? "uri").bind fun ownerUriV =>
    some (playlistRow nameV descriptionV uriV urlV ownerNameV ownerUriV)

/-- Models `get_info_from_audio_features` (lines 238-245): a dict
comprehension over `TRACK_COLUMNS_AUDIO_FEATURES` that maps every key to
None when the argument is None, and otherwise to `audio_features[key]`
(raising on a missing key). -/
def get_info_from_audio_features (audio_features : Option Val) : Option Row :=
  match audio_features with
  | none => some (TRACK_COLUMNS_AUDIO_FEATURES.map fun k => (k, Val.vnull))
  | some af => pyListComp (fun k => (af.get? k).map (fun v => (k, v)))
      TRACK_COLUMNS_AUDIO_FEATURES

/-- A duck-typed `id, uri, or dict` argument of the interface methods:
either a Python str or a Python dict (the raw record). The runtime test
`type(x) == dict` of the source becomes the constructor distinction. -/
inductive Ident : Type where
  | str : String → Ident
  | dict : List (String × Val) → Ident

/-- Models the Python call `s.startswith(p)`: the first `len(p)`
characters of `s` are exactly `p`. -/
def pyStartswith (s p : String) : Bool :=
  decide (s.data.take p.data.length = p.data)

/-- Models the Python slice `s[n:]` on a str: the characters from index
`n` on. -/
def pySliceFrom (s : String) (n : Nat) : String := ⟨s.data.drop n⟩

/-- Models `get_track_uri_from_track` (lines 141-151): a dict gives its
`uri` value (a raised KeyError, `none`, when the key is missing); a str
is returned unchanged when it starts with `spotify:track:` and prefixed
with `spotify:track:` otherwise. -/
def get_track_uri_from_track : Ident → Option Val
  | .dict fields => pyLookup fields "uri"
  | .str s =>
      some (.vstr (if pyStartswith s "spotify:track:" then s else "spotify:track:" ++ s))

/-- Models `get_playlist_uri_from_playlist` (lines 116-126), exactly as
the track variant but with the `spotify:playlist:` marker. -/
def get_playlist_uri_from_playlist : Ident → Option Val
  | .dict fields => pyLookup fields "uri"
  | .str s =>
      some (.vstr (if pyStartswith s "spotify:playlist:" then s else "spotify:playlist:" ++ s))

/-- Models `get_user_id_from_user` (lines 103-114): `None` gives the
configured `self.user_id`; a dict gives its `id` value (raising when
missing); a str starting with `spotify:user:` is stripped of that marker,
any other str is returned unchanged. -/
def get_user_id_from_user (self_user_id : String) : Option Ident → Option Val
  | none => some (.vstr self_user_id)
  | some (.dict fields) => pyLookup fields "id"
  | some (.str s) =>
      some (.vstr (if pyStartswith s "spotify:user:"
        then pySliceFrom s "spotify:user:".length else s))

/-- Models `get_track_from_track` (lines 153-164). The remote
single-entity lookup `self.sp.track` is a parameter: `.ok` a raw record,
`.error` a raised SpotifyException. A dict argument is returned as is;
for a str the remote lookup is attempted and a SpotifyException is caught
and turned into `None` (after logging a warning), so the function itself
always returns (the `Option` carries no failure, only the None record). -/
def get_track_from_track (remote_track : String → Except Unit Val) : Ident → Option Val
  | .dict fields => some (.vdict fields)
  | .str s =>
      match remote_track s with
      | .ok v => some v
      | .error _ => none

/-- Models `get_playlist_from_playlist` (lines 128-139), exactly as the
track variant but against `self.sp.playlist`. -/
def get_playlist_from_playlist (remote_playlist : String → Except Unit Val) :
    Ident → Option Val
  | .dict fields => some (.vdict fields)
  | .str s =>
      match remote_playlist s with
      | .ok v => some v
      | .error _ => none

/-- Models `get_info_from_track` (lines 212-236) end to end: resolve the
argument through `get_track_from_track`, then project. -/
def get_info_from_track (remote_track : String → Except Unit Val) (track : Ident) :
    Option Row :=
  get_info_from_track_of (get_track_from_track remote_track track)

/-- Models `get_info_from_playlist` (lines 180-196) end to end: resolve
the argument through `get_playlist_from_playlist`, then project. -/
def get_info_from_playlist (remote_playlist : String → Except Unit Val) (playlist : Ident) :
    Option Row :=
  get_info_from_playlist_of (get_playlist_from_playlist remote_playlist playlist)

/-- One response of the remote paging operation: a mapping with `items`,
`limit` and `next` (line 297-302 read exactly these three keys; `next` is
a url string or None). -/
structure Page (α : Type) where
  items : List α
  limit : Nat
  next : Option String

/-- Models the generator `_get_all_items` (lines 293-303) run to
completion, instrumented with the trace of its remote calls. The page
getter already has the collection uri bound, so it is a function of the
offset alone. `fuel` bounds how many fetches the simulation may perform:
`none` means the while-loop did not finish within `fuel` fetches, and
`some (offsets, items)` that it finished, fetching at exactly the listed
offsets in order and yielding exactly `items` in order. The loop fetches
at the current offset, yields every item of the page, advances the offset
by the limit the response reports, and exits iff the response has
`next = None`. -/
def get_all_items (f : Nat → Page α) : Nat → Nat → Option (List Nat × List α)
  | 0, _ => none
  | fuel + 1, offset =>
    let response := f offset
    if response.next = none then
      some ([offset], response.items)
    else
      match get_all_items f fuel (offset + response.limit) with
      | none => none
      | some (offs, rest) => some (offset :: offs, response.items ++ rest)

/-- Models `get_playlists_from_user` (lines 166-171): resolve the user
id, then paginate `self.sp.user_playlists` for it. The id resolution can
raise (dict without `id`), in which case no traversal happens. -/
def get_playlists_from_user (user_playlists : Val → Nat → Page α) (self_user_id : String)
    (user : Option Ident) (fuel : Nat) : Option (List Nat × List α) :=
  (get_user_id_from_user self_user_id user).bind fun uid =>
    get_all_items (user_playlists uid) fuel 0

/-- Models `get_tracks_from_playlist` (lines 173-178): resolve the
playlist uri, then paginate `self.sp.playlist_items` for it. -/
def get_tracks_from_playlist (playlist_items : Val → Nat → Page α) (playlist : Ident)
    (fuel : Nat) : Option (List Nat × List α) :=
  (get_playlist_uri_from_playlist playlist).bind fun uri =>
    get_all_items (playlist_items uri) fuel 0

/-- Models a consumer that pulls at most `k` items from the generator
`_get_all_items` and then stops, in the manner of `itertools.islice`:
exactly `k` successful resumptions of the generator, none after the k-th
item arrives. Returns the items obtained and the number of page fetches
performed. A consumer that takes no items never starts the generator
(a Python generator body only runs on the first next), so no fetch
happens. When the current page still holds enough items the consumer
stops inside the yield loop; only when it needs more does the generator
advance the offset, test `next`, and either stop (no fetch) or fetch the
following page. `fuel` bounds the number of pages crossed, enough for any
run that the theorems below consider. -/
def take_items (f : Nat → Page α) : Nat → Nat → Nat → List α × Nat
  | 0, _, _ => ([], 0)
  | fuel + 1, k, offset =>
    if k = 0 then ([], 0)
    else
      let response := f offset
      if k ≤ response.items.length then (response.items.take k, 1)
      else if response.next = none then (response.items, 1)
      else
        let rest := take_items f fuel (k - response.items.length) (offset + response.limit)
        (response.items ++ rest.1, rest.2 + 1)

/-- The consecutive slices `track_uris[i*MAX_FEATURES :
min((i+1)*MAX_FEATURES, len(track_uris))]` for `i` in
`range(ceil(len(track_uris) / MAX_FEATURES))`, exactly the batches that
`get_audio_features` (lines 198-210) passes to
`self.sp.audio_features`. Python `ceil` of the exact division is the
rounded-up integer quotient. -/
def featureChunks (track_uris : List α) : List (List α) :=
  (List.range ((track_uris.length + MAX_FEATURES - 1) / MAX_FEATURES)).map fun i =>
    (track_uris.take (min ((i + 1) * MAX_FEATURES) track_uris.length)).drop
      (i * MAX_FEATURES)

/-- Models `get_audio_features` (lines 198-210) run to completion,
instrumented with its remote calls: normalize every track argument to a
uri (the list comprehension on line 202, which raises if any dict lacks
`uri`), then call `fetch_batch` once per consecutive chunk of at most
`MAX_FEATURES` uris and yield every returned feature record in order.
Returns the list of batch arguments in call order alongside the yielded
records. -/
def get_audio_features (fetch_batch : List Val → List β) (tracks : List Ident) :
    Option (List (List Val) × List β) :=
  (pyListComp get_track_uri_from_track tracks).bind fun track_uris =>
  some (featureChunks track_uris, ((featureChunks track_uris).map fetch_batch).flatten)

/-- The trajectory of offsets the pagination loop visits: the first fetch
happens at `start`, and each later fetch at the previous offset advanced
by the `limit` the previous response reported (line 301). -/
def pageOffset (f : Nat → Page α) (start : Nat) : Nat → Nat
  | 0 => start
  | i + 1 => pageOffset f start i + (f (pageOffset f start i)).limit

/-- A playlist-item record of exactly the shape `get_info_from_track`
reads, every leaf a parameter: the album `release_date` key and the
external-urls `spotify` key are present iff the corresponding `Option`
argument is `some`. Used to state how the projection treats present and
missing keys. -/
def mkTrackRecord (nameV : Val) (artistNames : List Val) (addedAtV albumNameV : Val)
    (releaseDate spotifyUrl : Option Val) (uriV durationV popularityV : Val) : Val :=
  .vdict
    [("track", .vdict
        [("name", nameV),
         ("artists", .vlist (artistNames.map fun n => .vdict [("name", n)])),
         ("album", .vdict (("name", albumNameV) ::
            (match releaseDate with
             | some d => [("release_date", d)]
             | none => []))),
         ("external_urls", .vdict
            (match spotifyUrl with
             | some u => [("spotify", u)]
             | none => [])),
         ("uri", uriV),
         ("duration_ms", durationV),
         ("popularity", popularityV)]),
     ("added_at", addedAtV)]

/-! Helper lemmas. -/

/-- Looking up any column of a row built as the constant-null dict
comprehension finds None. -/
theorem pyLookup_map_const (v : Val) :
    ∀ (L : List String) (k : String), k ∈ L →
      pyLookup (L.map fun k2 => (k2, v)) k = some v := by
  intro L
  induction L with
  | nil => intro k h; cases h
  | cons a L ih =>
    intro k h
    rcases List.mem_cons.mp h with rfl | hmem
    · simp [pyLookup]
    · by_cases hak : a = k
      · subst hak; simp [pyLookup]
      · simpa [pyLookup, hak] using ih k hmem

/-- A string extended by anything still starts with itself. -/
theorem pyStartswith_append (p s : String) : pyStartswith (p ++ s) p = true := by
  simp only [pyStartswith, decide_eq_true_eq, String.data_append]
  exact List.take_left p.data s.data

/-! Claim C3. -/

/-- C3: for a null raw record (a failed upstream lookup), each projection
returns the row mapping every declared column of its column set to None:
`get_info_from_track` over `TRACK_COLUMNS`, `get_info_from_playlist` over
`PLAYLIST_COLUMNS` and `get_info_from_audio_features` over
`TRACK_COLUMNS_AUDIO_FEATURES`. -/
theorem null_record_projects_all_null :
    (get_info_from_track_of none =
        some (TRACK_COLUMNS.map fun k => (k, Val.vnull)) ∧
      ∀ k ∈ TRACK_COLUMNS,
        pyLookup (TRACK_COLUMNS.map fun k2 => (k2, Val.vnull)) k = some Val.vnull) ∧
    (get_info_from_playlist_of none =
        some (PLAYLIST_COLUMNS.map fun k => (k, Val.vnull)) ∧
      ∀ k ∈ PLAYLIST_COLUMNS,
        pyLookup (PLAYLIST_COLUMNS.map fun k2 => (k2, Val.vnull)) k = some Val.vnull) ∧
    (get_info_from_audio_features none =
        some (TRACK_COLUMNS_AUDIO_FEATURES.map fun k => (k, Val.vnull)) ∧
      ∀ k ∈ TRACK_COLUMNS_AUDIO_FEATURES,
        pyLookup (TRACK_COLUMNS_AUDIO_FEATURES.map fun k2 => (k2, Val.vnull)) k =
          some Val.vnull) :=
  ⟨⟨rfl, fun k hk => pyLookup_map_const Val.vnull _ k hk⟩,
   ⟨rfl, fun k hk => pyLookup_map_const Val.vnull _ k hk⟩,
   ⟨rfl, fun k hk => pyLookup_map_const Val.vnull _ k hk⟩⟩

/-! Claim C5. -/

/-- C5: the uri normalizers are idempotent on string input: one
application yields a string that a second application maps to itself,
for `get_track_uri_from_track` and `get_playlist_uri_from_playlist`
alike (they are plain functions, so the result is deterministic). -/
theorem uri_normalizers_idempotent :
    (∀ s : String, ∃ y : String,
      get_track_uri_from_track (.str s) = some (.vstr y) ∧
      get_track_uri_from_track (.str y) = some (.vstr y)) ∧
    (∀ s : String, ∃ y : String,
      get_playlist_uri_from_playlist (.str s) = some (.vstr y) ∧
      get_playlist_uri_from_playlist (.str y) = some (.vstr y)) := by
  constructor
  · intro s
    by_cases h : pyStartswith s "spotify:track:" = true
    · exact ⟨s, by simp [get_track_uri_from_track, h],
        by simp [get_track_uri_from_track, h]⟩
    · refine ⟨"spotify:track:" ++ s, by simp [get_track_uri_from_track, h], ?_⟩
      simp [get_track_uri_from_track, pyStartswith_append]
  · intro s
    by_cases h : pyStartswith s "spotify:playlist:" = true
    · exact ⟨s, by simp [get_playlist_uri_from_playlist, h],
        by simp [get_playlist_uri_from_playlist, h]⟩
    · refine ⟨"spotify:playlist:" ++ s, by simp [get_playlist_uri_from_playlist, h], ?_⟩
      simp [get_playlist_uri_from_playlist, pyStartswith_append]

/-! Claim C10. -/

/-- C10: the normalizers are total on string input and pass malformed
identifiers through: a str without the expected marker (the empty string
and uris of other entity types included) is returned with the marker
prepended, never a failure; only a dict argument can fail, exactly when
it lacks the expected key (`uri`, or `id` for the user resolver). The
last conjunct is the cross-entity example: a playlist uri fed to the
track normalizer. -/
theorem normalizers_total_on_strings :
    (∀ s : String, pyStartswith s "spotify:track:" = false →
      get_track_uri_from_track (.str s) = some (.vstr ("spotify:track:" ++ s))) ∧
    (∀ s : String, (get_track_uri_from_track (.str s)).isSome = true) ∧
    (∀ fields, get_track_uri_from_track (.dict fields) = none ↔
      pyLookup fields "uri" = none) ∧
    (∀ s : String, pyStartswith s "spotify:playlist:" = false →
      get_playlist_uri_from_playlist (.str s) = some (.vstr ("spotify:playlist:" ++ s))) ∧
    (∀ s : String, (get_playlist_uri_from_playlist (.str s)).isSome = true) ∧
    (∀ fields, get_playlist_uri_from_playlist (.dict fields) = none ↔
      pyLookup fields "uri" = none) ∧
    (∀ (uid : String) (s : String),
      (get_user_id_from_user uid (some (.str s))).isSome = true) ∧
    (∀ (uid : String) fields, get_user_id_from_user uid (some (.dict fields)) = none ↔
      pyLookup fields "id" = none) ∧
    get_track_uri_from_track (.str "spotify:playlist:x") =
      some (.vstr "spotify:track:spotify:playlist:x") := by
  refine ⟨?_, fun s => rfl, fun fields => Iff.rfl, ?_, fun s => rfl,
    fun fields => Iff.rfl, fun uid s => rfl, fun uid fields => Iff.rfl, by rfl⟩
  · intro s h; simp [get_track_uri_from_track, h]
  · intro s h; simp [get_playlist_uri_from_playlist, h]

/-! Claim C6. -/

/-- C6: a single-entity lookup whose remote call raises a
SpotifyException (deleted or private entity) is recovered locally:
`get_track_from_track` and `get_playlist_from_playlist` return the None
record instead of letting the failure escape, and the projection of that
record is the all-null row, so the run continues with one degraded row. -/
theorem notfound_recovered (remote_track remote_playlist : String → Except Unit Val)
    (s t : String) (h1 : remote_track s = .error ()) (h2 : remote_playlist t = .error ()) :
    get_track_from_track remote_track (.str s) = none ∧
    get_info_from_track remote_track (.str s) =
      some (TRACK_COLUMNS.map fun k => (k, Val.vnull)) ∧
    get_playlist_from_playlist remote_playlist (.str t) = none ∧
    get_info_from_playlist remote_playlist (.str t) =
      some (PLAYLIST_COLUMNS.map fun k => (k, Val.vnull)) := by
  have e1 : get_track_from_track remote_track (.str s) = none := by
    simp [get_track_from_track, h1]
  have e2 : get_playlist_from_playlist remote_playlist (.str t) = none := by
    simp [get_playlist_from_playlist, h2]
  exact ⟨e1, by simp [get_info_from_track, e1, get_info_from_track_of],
    e2, by simp [get_info_from_playlist, e2, get_info_from_playlist_of]⟩

/-- Witness for C6 at a concrete misbehaving remote. -/
theorem notfound_recovered_witness :
    get_track_from_track (fun _ => .error ()) (.str "deleted") = none ∧
    get_info_from_track (fun _ => .error ()) (.str "deleted") =
      some (TRACK_COLUMNS.map fun k => (k, Val.vnull)) ∧
    get_playlist_from_playlist (fun _ => .error ()) (.str "gone") = none ∧
    get_info_from_playlist (fun _ => .error ()) (.str "gone") =
      some (PLAYLIST_COLUMNS.map fun k => (k, Val.vnull)) :=
  notfound_recovered (fun _ => .error ()) (fun _ => .error ()) "deleted" "gone" rfl rfl

/-! Claim C2. -/

/-- Reading the `name` key of each singleton artist dict recovers
exactly the artist name values. -/
theorem pyListComp_name_mk :
    ∀ l : List Val,
      pyListComp (fun a => a.get? "name") (l.map fun n => Val.vdict [("name", n)]) =
        some l := by
  intro l
  induction l with
  | nil => rfl
  | cons a l ih =>
    simp only [List.map_cons, pyListComp, ih]
    rfl

/-- Iterating the artists list of a record built by `mkTrackRecord`
recovers exactly the artist name values. -/
theorem artistNameTuple_mk (artistNames : List Val) :
    artistNameTuple (.vlist (artistNames.map fun n => .vdict [("name", n)])) =
      some artistNames :=
  pyListComp_name_mk artistNames

/-- Reduction of the track projection on a record of the read shape:
everything computes away except the iteration over the abstract artist
list, and the result hinges on the album `release_date` key alone once
the (always present) other keys are read. -/
theorem get_info_from_track_of_mk (nameV : Val) (artistNames : List Val)
    (addedAtV albumNameV : Val) (releaseDate spotifyUrl : Option Val)
    (uriV durationV popularityV : Val) :
    get_info_from_track_of (some (mkTrackRecord nameV artistNames addedAtV albumNameV
        releaseDate spotifyUrl uriV durationV popularityV)) =
      (artistNameTuple (.vlist (artistNames.map fun n => .vdict [("name", n)]))).bind
        (fun ans =>
          match releaseDate with
          | none => none
          | some d =>
              some (trackRow nameV (Val.vstr (pyReprTuple (pyReprList ans)))
                addedAtV albumNameV d (spotifyUrl.getD Val.vnull)
                uriV durationV popularityV)) := by
  cases releaseDate <;> cases spotifyUrl <;> rfl

/-- C2 counterexample: a raw track record that lacks only the album
`release_date` key makes the track projection raise a KeyError (modelled
as `none`) instead of returning a row whose `album_date` column is null;
and a raw playlist record that lacks the external-urls map makes the
playlist projection raise as well. Only the innermost `spotify` key of
the external-urls map is read with a null default. -/
theorem projection_missing_key_raises :
    get_info_from_track_of (some (mkTrackRecord (.vstr "Song") [.vstr "Artist"]
        (.vstr "2020-01-01T00:00:00Z") (.vstr "Album") none (some (.vstr "http://t"))
        (.vstr "spotify:track:1") (.vnum 200000) (.vnum 50))) = none ∧
    get_info_from_playlist_of (some (.vdict
        [("name", .vstr "P"), ("description", .vstr "D"),
         ("uri", .vstr "spotify:playlist:1"),
         ("owner", .vdict [("display_name", .vstr "O"),
                           ("uri", .vstr "spotify:user:o")])])) = none := by
  exact ⟨rfl, rfl⟩

/-- C2 (amended): the projection does not null-fill arbitrary missing
keys. Over a track record of the read shape with every leaf arbitrary:
when the album `release_date` key is missing the projection raises
(returns `none`) instead of producing a row; the one tolerated absence
is the `spotify` key inside the external-urls map, whose lack yields the
same row as a full projection except that the `url` column is None. -/
theorem projection_missing_key_behavior (nameV : Val) (artistNames : List Val)
    (addedAtV albumNameV : Val) (releaseDate spotifyUrl : Option Val)
    (uriV durationV popularityV : Val) :
    get_info_from_track_of (some (mkTrackRecord nameV artistNames addedAtV albumNameV
        releaseDate spotifyUrl uriV durationV popularityV)) =
      match releaseDate with
      | none => none
      | some d =>
          some (trackRow nameV (Val.vstr (pyReprTuple (pyReprList artistNames)))
            addedAtV albumNameV d (spotifyUrl.getD Val.vnull)
            uriV durationV popularityV) := by
  rw [get_info_from_track_of_mk, artistNameTuple_mk]
  cases releaseDate <;> rfl

/-! Claim C9. -/

/-- C9: the key set of a projected track row depends on whether the
lookup succeeded: the null-record row has all 21 `TRACK_COLUMNS` keys
(9 basic and 12 audio-feature ones), while every row produced from an
actual record has exactly the 9 basic keys, in insertion order, and no
audio-feature key. -/
theorem track_row_key_sets :
    (get_info_from_track_of none).map (fun row => row.map Prod.fst) =
      some TRACK_COLUMNS ∧
    TRACK_COLUMNS.length = 21 ∧
    TRACK_COLUMNS_BASIC.length = 9 ∧
    TRACK_COLUMNS_AUDIO_FEATURES.length = 12 ∧
    (∀ t row, get_info_from_track_of (some t) = some row →
      row.map Prod.fst = ["name", "artist", "added_at", "album", "album_date",
        "url", "uri", "duration", "popularity"]) := by
  refine ⟨rfl, rfl, rfl, rfl, ?_⟩
  intro t row h
  simp only [get_info_from_track_of, Option.bind_eq_some, Option.some.injEq] at h
  obtain ⟨tr, -, nameV, -, artistsV, -, artistNames, -, addedAtV, -, albumV, -,
    albumNameV, -, albumDateV, -, extUrlsV, -, urlV, -, uriV, -, durationV, -,
    popularityV, -, hrow⟩ := h
  rw [← hrow]
  rfl

/-- Witness for C9: a successful projection at a concrete record carries
exactly the 9 basic keys. -/
theorem track_row_key_sets_witness :
    (trackRow (.vstr "S") (Val.vstr (pyReprTuple (pyReprList [])))
        (.vstr "2020") (.vstr "Al") (.vstr "2019") (.vstr "u")
        (.vstr "spotify:track:2") (.vnum 1) (.vnum 2)).map Prod.fst =
      ["name", "artist", "added_at", "album", "album_date",
       "url", "uri", "duration", "popularity"] :=
  track_row_key_sets.2.2.2.2
    (mkTrackRecord (.vstr "S") [] (.vstr "2020") (.vstr "Al")
      (some (.vstr "2019")) (some (.vstr "u")) (.vstr "spotify:track:2")
      (.vnum 1) (.vnum 2))
    (trackRow (.vstr "S") (Val.vstr (pyReprTuple (pyReprList [])))
      (.vstr "2020") (.vstr "Al") (.vstr "2019") (.vstr "u")
      (.vstr "spotify:track:2") (.vnum 1) (.vnum 2))
    (by rfl)

/-! Claim C7. -/

/-- C7 counterexample: for a fetcher whose first page has one item, a
consumer that takes the first 0 items (0 is at most the first page
size) performs zero page fetches, not exactly one: a Python generator
body does not run, and so fetches nothing, until the consumer first
resumes it. -/
theorem take_zero_items_no_fetch :
    (take_items (fun _ => ({ items := [0], limit := 1, next := none } : Page Nat))
      1 0 0).2 = 0 ∧
    ¬ (take_items (fun _ => ({ items := [0], limit := 1, next := none } : Page Nat))
      1 0 0).2 = 1 := by
  exact ⟨rfl, by decide⟩

/-- C7 (amended): the pagination sequence is lazy. A consumer that stops
after taking the first k items, with 1 ≤ k ≤ the size of the first page,
causes exactly one page fetch, whatever the later pages hold; a consumer
that takes no items causes no fetch at all (the generator is never
started). Stopping consumption never triggers speculative retrieval of
later pages. -/
theorem take_k_items_single_fetch (f : Nat → Page α) (fuel k : Nat) (hfuel : 1 ≤ fuel) :
    (1 ≤ k → k ≤ (f 0).items.length →
      take_items f fuel k 0 = ((f 0).items.take k, 1)) ∧
    take_items f fuel 0 0 = ([], 0) := by
  obtain ⟨m, rfl⟩ : ∃ m, fuel = m + 1 := ⟨fuel - 1, by omega⟩
  constructor
  · intro hk hlen
    simp [take_items, show ¬ k = 0 by omega, hlen]
  · simp [take_items]

/-- Witness for C7 at a concrete fetcher whose first page has two items
and reports a further page. -/
theorem take_k_items_single_fetch_witness :
    take_items (fun _ => ({ items := [10, 20], limit := 2, next := some "u" } : Page Nat))
      3 2 0 = ([10, 20], 1) ∧
    take_items (fun _ => ({ items := [10, 20], limit := 2, next := some "u" } : Page Nat))
      3 0 0 = ([], 0) :=
  ⟨(take_k_items_single_fetch
      (fun _ => ({ items := [10, 20], limit := 2, next := some "u" } : Page Nat))
      3 2 (by decide)).1 (by decide) (by decide),
   (take_k_items_single_fetch
      (fun _ => ({ items := [10, 20], limit := 2, next := some "u" } : Page Nat))
      3 0 (by decide)).2⟩

/-! Claims C1 and C8: pagination. -/

/-- Advancing the start of the trajectory by one fetch shifts its
indices. -/
theorem pageOffset_shift (f : Nat → Page α) (start : Nat) :
    ∀ i, pageOffset f start (i + 1) = pageOffset f (start + (f start).limit) i := by
  intro i
  induction i with
  | zero => rfl
  | succ j ih =>
    show pageOffset f start (j + 1) + (f (pageOffset f start (j + 1))).limit = _
    rw [ih]
    rfl

/-- The traversal under a trajectory whose first N pages carry `next`
only until the N-th: with any fuel of at least N it finishes, fetches
exactly at the N trajectory offsets, and yields the concatenation of the
N pages of items, in order. -/
theorem get_all_items_pages (f : Nat → Page α) :
    ∀ N : Nat, 0 < N → ∀ start : Nat,
      (∀ i, i + 1 < N → (f (pageOffset f start i)).next ≠ none) →
      (f (pageOffset f start (N - 1))).next = none →
      ∀ fuel, N ≤ fuel →
      get_all_items f fuel start =
        some ((List.range N).map (pageOffset f start),
          ((List.range N).map fun i => (f (pageOffset f start i)).items).flatten) := by
  intro N
  induction N with
  | zero => omega
  | succ M ih =>
    intro _ start hmid hlast fuel hfuel
    obtain ⟨fuel, rfl⟩ : ∃ m, fuel = m + 1 := ⟨fuel - 1, by omega⟩
    by_cases hM : M = 0
    · subst hM
      have h0 : (f start).next = none := hlast
      simp [get_all_items, h0, List.range_succ, pageOffset]
    · have h0 : ¬ (f start).next = none := hmid 0 (by omega)
      have hrec := ih (by omega) (start + (f start).limit)
        (fun i hi => by
          have := hmid (i + 1) (by omega)
          rwa [pageOffset_shift] at this)
        (by
          have he : pageOffset f (start + (f start).limit) (M - 1) =
              pageOffset f start (M - 1 + 1) := (pageOffset_shift f start (M - 1)).symm
          rw [he, show M - 1 + 1 = M + 1 - 1 by omega]
          exact hlast)
        fuel (by omega)
      have step : get_all_items f (fuel + 1) start =
          some (start :: (List.range M).map (pageOffset f (start + (f start).limit)),
            (f start).items ++
              ((List.range M).map fun i =>
                (f (pageOffset f (start + (f start).limit) i)).items).flatten) := by
        simp [get_all_items, h0, hrec]
      rw [step, List.range_succ_eq_map]
      simp only [List.map_cons, List.map_map, Function.comp_def, Nat.succ_eq_add_one,
        pageOffset_shift, List.flatten_cons]
      rfl

/-- C1: for every page-fetch function and every N such that the first N
pages along the offset trajectory report `next` absent exactly on the
N-th, the traversal `_get_all_items` finishes within any fuel of at
least N, fetching exactly N times at the trajectory offsets 0, limit,
limit+limit, ... (each advance by the limit the respective response
reported) and yielding exactly the concatenation of the N pages of
items in order; no fetch beyond the N-th happens however much fuel is
given. -/
theorem pagination_yields_concatenation (f : Nat → Page α) (N : Nat) (hN : 0 < N)
    (hmid : ∀ i, i + 1 < N → (f (pageOffset f 0 i)).next ≠ none)
    (hlast : (f (pageOffset f 0 (N - 1))).next = none)
    (fuel : Nat) (hfuel : N ≤ fuel) :
    get_all_items f fuel 0 =
      some ((List.range N).map (pageOffset f 0),
        ((List.range N).map fun i => (f (pageOffset f 0 i)).items).flatten) :=
  get_all_items_pages f N hN 0 hmid hlast fuel hfuel

/-- Witness for C1. First conjunct: a single page with empty items and
absent `next` yields the empty sequence after exactly one fetch (also
with surplus fuel). Second conjunct: two pages of limit 2 with the
second one final yield the four items in order after exactly the two
fetches at offsets 0 and 2. -/
theorem pagination_yields_concatenation_witness :
    get_all_items
        (fun _ => ({ items := [], limit := 50, next := none } : Page Nat)) 7 0 =
      some ([0], []) ∧
    get_all_items
        (fun o => if o = 0 then ({ items := [1, 2], limit := 2, next := some "n" } : Page Nat)
          else { items := [3, 4], limit := 2, next := none }) 2 0 =
      some ([0, 2], [1, 2, 3, 4]) :=
  ⟨pagination_yields_concatenation
      (fun _ => ({ items := [], limit := 50, next := none } : Page Nat)) 1 (by decide)
      (fun i hi => absurd hi (by omega)) rfl 7 (by decide),
   pagination_yields_concatenation
      (fun o => if o = 0 then ({ items := [1, 2], limit := 2, next := some "n" } : Page Nat)
        else { items := [3, 4], limit := 2, next := none }) 2 (by decide)
      (fun i hi => by
        have : i = 0 := by omega
        subst this
        decide)
      (by decide) 2 (by decide)⟩

/-- A traversal whose every response carries a `next` marker never
finishes, with any amount of fuel and from any offset. -/
theorem get_all_items_none_of_next_always (f : Nat → Page α)
    (h : ∀ o, (f o).next ≠ none) :
    ∀ fuel start, get_all_items f fuel start = none := by
  intro fuel
  induction fuel with
  | zero => intro start; rfl
  | succ m ih =>
    intro start
    simp [get_all_items, h start, ih]

/-- C8: the loop terminates strictly on `next` being absent and on
nothing else. If some page along the fetch trajectory reports `next`
absent, some fuel completes the traversal; if every page reports `next`
present — its items may well be empty — no fuel ever does: there is no
other guard or iteration bound. -/
theorem pagination_terminates_iff_next_absent (f : Nat → Page α) :
    ((∃ i, (f (pageOffset f 0 i)).next = none) →
      ∃ fuel, (get_all_items f fuel 0).isSome = true) ∧
    ((∀ o, (f o).next ≠ none) → ∀ fuel, get_all_items f fuel 0 = none) := by
  constructor
  · intro hex
    have hfind := Nat.find_spec hex
    refine ⟨Nat.find hex + 1, ?_⟩
    rw [get_all_items_pages f (Nat.find hex + 1) (by omega) 0
      (fun i hi => Nat.find_min hex (by omega)) (by simpa using hfind)
      (Nat.find hex + 1) le_rfl]
    rfl
  · exact fun h fuel => get_all_items_none_of_next_always f h fuel 0

/-- Witness for C8: a fetcher of final empty pages terminates with fuel
one; a fetcher whose (empty-itemed) pages always announce more never
terminates. -/
theorem pagination_terminates_iff_next_absent_witness :
    (∃ fuel,
      (get_all_items (fun _ => ({ items := [], limit := 1, next := none } : Page Nat))
        fuel 0).isSome = true) ∧
    (∀ fuel,
      get_all_items (fun _ => ({ items := [], limit := 1, next := some "more" } : Page Nat))
        fuel 0 = none) :=
  ⟨(pagination_terminates_iff_next_absent
      (fun _ => ({ items := [], limit := 1, next := none } : Page Nat))).1 ⟨0, rfl⟩,
   (pagination_terminates_iff_next_absent
      (fun _ => ({ items := [], limit := 1, next := some "more" } : Page Nat))).2
      (fun _ h => Option.noConfusion h)⟩

/-! Claim C4: audio-feature batching. -/

/-- The Python slice `l[i*k : min((i+1)*k, len(l))]` is the k-sized
window of `l` at position i*k. -/
theorem slice_eq_drop_take (l : List α) (i k : Nat) :
    (l.take (min ((i + 1) * k) l.length)).drop (i * k) = (l.drop (i * k)).take k := by
  rw [show (i + 1) * k = i * k + k from by ring, List.drop_take, List.take_eq_take]
  simp only [List.length_drop, inf_eq_min]
  generalize i * k = a
  omega

/-- Concatenating all k-sized windows of a list, one per index below the
rounded-up quotient of its length by k, restores the list. -/
theorem flatten_window_chunks (k : Nat) (hk : 0 < k) :
    ∀ l : List α,
      ((List.range ((l.length + k - 1) / k)).map fun i =>
        (l.drop (i * k)).take k).flatten = l := by
  suffices H : ∀ (n : Nat) (l : List α), l.length = n →
      ((List.range ((l.length + k - 1) / k)).map fun i =>
        (l.drop (i * k)).take k).flatten = l by
    exact fun l => H l.length l rfl
  intro n
  induction n using Nat.strong_induction_on with
  | _ n ihn =>
    intro l hl
    subst hl
    rcases l with _ | ⟨a, l2⟩
    · simp [Nat.div_eq_of_lt (show 0 + k - 1 < k by omega)]
    · have hcount : ((a :: l2).length + k - 1) / k =
          (((a :: l2).drop k).length + k - 1) / k + 1 := by
        simp only [List.length_cons, List.length_drop]
        by_cases hnk : l2.length + 1 ≤ k
        · rw [show l2.length + 1 + k - 1 = l2.length + k from by omega,
            Nat.add_div_right _ hk, Nat.div_eq_of_lt (by omega),
            show l2.length + 1 - k = 0 from by omega,
            Nat.div_eq_of_lt (show 0 + k - 1 < k by omega)]
        · rw [show l2.length + 1 + k - 1 = l2.length + k from by omega,
            Nat.add_div_right _ hk,
            show l2.length + 1 - k + k - 1 = (l2.length - k) + k from by omega,
            Nat.add_div_right _ hk,
            show l2.length = (l2.length - k) + k from by omega,
            Nat.add_div_right _ hk, Nat.add_sub_cancel]
      rw [hcount, List.range_succ_eq_map]
      simp only [List.map_cons, List.map_map, Function.comp_def, Nat.succ_eq_add_one,
        List.flatten_cons, Nat.zero_mul, List.drop_zero]
      have hshift : ∀ i : Nat, ((a :: l2).drop ((i + 1) * k)).take k =
          (((a :: l2).drop k).drop (i * k)).take k := by
        intro i
        rw [List.drop_drop]
        congr 2
        ring
      simp only [hshift]
      rw [ihn ((a :: l2).drop k).length
        (by simp only [List.length_drop, List.length_cons]; omega)
        ((a :: l2).drop k) rfl]
      exact List.take_append_drop k (a :: l2)

/-- The batches of `get_audio_features` in window form. -/
theorem featureChunks_eq_window (l : List α) :
    featureChunks l = (List.range ((l.length + MAX_FEATURES - 1) / MAX_FEATURES)).map
      fun i => (l.drop (i * MAX_FEATURES)).take MAX_FEATURES := by
  simp only [featureChunks, slice_eq_drop_take]

/-- Concatenating the batches of `get_audio_features` restores the uri
list. -/
theorem featureChunks_flatten (l : List α) : (featureChunks l).flatten = l := by
  rw [featureChunks_eq_window]
  exact flatten_window_chunks MAX_FEATURES (by decide) l

/-- A successful Python list comprehension has one element per input
element. -/
theorem pyListComp_length (f : α → Option β) :
    ∀ (l : List α) (r : List β), pyListComp f l = some r → r.length = l.length := by
  intro l
  induction l with
  | nil =>
    intro r h
    simp only [pyListComp, Option.some.injEq] at h
    simp [← h]
  | cons a l ih =>
    intro r h
    simp only [pyListComp, Option.bind_eq_some, Option.some.injEq] at h
    obtain ⟨b, -, bs, hbs, hr⟩ := h
    simp [← hr, ih bs hbs]

/-- C4: `get_audio_features` with a per-uri batch lookup partitions the
normalized uris into consecutive batches of at most `MAX_FEATURES`,
calls the remote batch lookup once per batch — exactly the rounded-up
quotient of the uri count by `MAX_FEATURES` many calls, in order — and
yields one result per input identifier, in input order. -/
theorem audio_features_batched (g : Val → β) (tracks : List Ident) (track_uris : List Val)
    (h : pyListComp get_track_uri_from_track tracks = some track_uris) :
    get_audio_features (List.map g) tracks =
      some (featureChunks track_uris, track_uris.map g) ∧
    (featureChunks track_uris).length =
      (track_uris.length + MAX_FEATURES - 1) / MAX_FEATURES ∧
    (∀ c ∈ featureChunks track_uris, c.length ≤ MAX_FEATURES) ∧
    (featureChunks track_uris).flatten = track_uris ∧
    track_uris.length = tracks.length := by
  refine ⟨?_, ?_, ?_, featureChunks_flatten track_uris, pyListComp_length _ _ _ h⟩
  · simp only [get_audio_features, h, Option.some_bind]
    rw [← List.map_flatten, featureChunks_flatten]
  · simp [featureChunks]
  · intro c hc
    rw [featureChunks_eq_window] at hc
    simp only [List.mem_map, List.mem_range] at hc
    obtain ⟨i, -, rfl⟩ := hc
    rw [List.length_take]
    exact inf_le_left

set_option maxRecDepth 100000 in
/-- Witness for C4: 250 identifiers make exactly 3 batch calls of sizes
100, 100 and 50 and return 250 results. -/
theorem audio_features_batched_witness :
    get_audio_features (List.map fun _ => (0 : Nat))
        (List.replicate 250 (Ident.str "a")) =
      some (featureChunks (List.replicate 250 (Val.vstr "spotify:track:a")),
        List.replicate 250 (0 : Nat)) ∧
    (featureChunks (List.replicate 250 (Val.vstr "spotify:track:a"))).map List.length =
      [100, 100, 50] :=
  ⟨(audio_features_batched (fun _ => (0 : Nat)) (List.replicate 250 (Ident.str "a"))
      (List.replicate 250 (Val.vstr "spotify:track:a")) (by rfl)).1, by decide⟩

end Spotify
